import Mathlib

/-!
# Verification of the bnl core data model (`src/bnl/core.py`)

A shallow embedding of the core data structures of the repository:
`TimeSpan`, `Segmentation` and `Hierarchy`, with their validating
constructors (`__post_init__`), the factory constructors
`Segmentation.from_intervals` / `Segmentation.from_boundaries`, the
derived views `labels` / `bdrys`, and Python-style list indexing.

Python floats are modelled as exact rationals (every numeric literal in
the claims is exactly representable); Python exceptions are modelled by
`Except BnlError`; Python's stable `sorted` is modelled by Mathlib's
stable `List.insertionSort` on the same key.
-/

deriving instance DecidableEq for Except

namespace Bnl

/-- The errors the core can raise.  The source raises `ValueError` with a
fixed message for the contiguity and extent checks (the message strings are
carried verbatim), `ValueError` with the offending times for the range
check, and `IndexError` for out-of-range list access. -/
inductive BnlError where
  | invalidRange (s e : ℚ)
  | nonContiguous (msg : String)
  | inconsistentExtent (msg : String)
  | indexError
  deriving DecidableEq

/-- `TimeSpan` dataclass: `start`, `end` (called `stop` here, `end` is a
Lean keyword) and an optional `name`. -/
structure TimeSpan where
  start : ℚ
  stop : ℚ
  name : Option String
  deriving DecidableEq

/-- `10 * q` rounded to the nearest integer, ties to even — the rounding
used by Python's fixed-point float formatting.  Written over the
numerator and denominator so that it evaluates by kernel reduction. -/
def round10HalfEven (q : ℚ) : ℤ :=
  let N : ℤ := 10 * q.num
  let D : ℤ := (q.den : ℤ)
  let f : ℤ := Int.fdiv N D
  let r : ℤ := N - f * D
  if 2 * r < D then f
  else if D < 2 * r then f + 1
  else if f % 2 = 0 then f else f + 1

/-- One-decimal fixed-point rendering of a rational, modelling the
format specifier `.1f` used in `TimeSpan.__str__`. -/
def fmt1 (q : ℚ) : String :=
  let n : ℤ := round10HalfEven q
  let sgn : String := if n < 0 ∨ (n = 0 ∧ q.num < 0) then "-" else ""
  let a : ℕ := n.natAbs
  sgn ++ toString (a / 10) ++ "." ++ toString (a % 10)

/-- The string `TimeSpan.__str__` produces while `name` is still `None`:
the formatted interval, used by `__post_init__` as the default name. -/
def defaultName (s e : ℚ) : String :=
  "[" ++ fmt1 s ++ "-" ++ fmt1 e ++ "s]"

/-- `TimeSpan.__init__` + `TimeSpan.__post_init__`: reject `start > end`,
then replace a missing name by the formatted-interval default. -/
def TimeSpan.make (s e : ℚ) (name : Option String) : Except BnlError TimeSpan :=
  if s > e then .error (.invalidRange s e)
  else .ok ⟨s, e, some (name.getD (defaultName s e))⟩

/-- The sort key of `Segmentation.__post_init__`'s
`sorted(self.segments, key=lambda x: x.start)`. -/
def spanLE (a b : TimeSpan) : Prop := a.start ≤ b.start

instance : DecidableRel spanLE :=
  fun a b => inferInstanceAs (Decidable (a.start ≤ b.start))

instance : IsTotal TimeSpan spanLE := ⟨fun a b => le_total a.start b.start⟩

instance : IsTrans TimeSpan spanLE := ⟨fun _ _ _ h1 h2 => le_trans h1 h2⟩

/-- Strict version of the sort key, used to state uniqueness of the
sorted order when all starts are distinct. -/
def spanLT (a b : TimeSpan) : Prop := a.start < b.start

instance : IsTrans TimeSpan spanLT := ⟨fun _ _ _ h1 h2 => lt_trans h1 h2⟩

instance : IsAntisymm TimeSpan spanLT :=
  ⟨fun _ _ h1 h2 => absurd (lt_trans h1 h2) (lt_irrefl _)⟩

/-- Python's `sorted(segments, key=lambda x: x.start)`: a stable sort by
start time, modelled by Mathlib's stable insertion sort. -/
def sortSpans (l : List TimeSpan) : List TimeSpan :=
  List.insertionSort spanLE l

/-- The contiguity loop of `Segmentation.__post_init__`: every adjacent
pair of the (sorted) list satisfies `segments[i].end == segments[i+1].start`. -/
def contiguousB : List TimeSpan → Bool
  | a :: b :: rest => (decide (a.stop = b.start)) && contiguousB (b :: rest)
  | _ => true

/-- The adjacency relation the contiguity loop checks. -/
def contiguousRel (x y : TimeSpan) : Prop := x.stop = y.start

/-- The message of the `ValueError` raised by the contiguity check. -/
def nonContiguousMsg : String := "Segments must be non-overlapping and contiguous."

/-- `Segmentation` dataclass: inherits `start`/`stop`/`name` from
`TimeSpan` and adds the member list. -/
structure Segmentation where
  start : ℚ
  stop : ℚ
  name : Option String
  segments : List TimeSpan
  deriving DecidableEq

/-- `Segmentation.__init__` + `Segmentation.__post_init__` (which fully
replaces `TimeSpan.__post_init__`: no `start > end` check, no name
defaulting): sort the members by start, raise unless adjacent members are
contiguous, then derive `start`/`end` from the first/last member when the
list is non-empty (else keep the passed values, `0.0` by default). -/
def Segmentation.make (s e : ℚ) (name : Option String) (segments : List TimeSpan) :
    Except BnlError Segmentation :=
  if contiguousB (sortSpans segments) then
    match sortSpans segments with
    | [] => .ok ⟨s, e, name, []⟩
    | a :: rest =>
      .ok ⟨a.start, ((a :: rest).getLast (List.cons_ne_nil a rest)).stop, name, a :: rest⟩
  else .error (.nonContiguous nonContiguousMsg)

/-- `Segmentation.labels`: the members' names in order. -/
def Segmentation.labels (s : Segmentation) : List (Option String) :=
  s.segments.map TimeSpan.name

/-- `Segmentation.bdrys`: the first member's start followed by every
member's end; empty for an empty segmentation. -/
def Segmentation.bdrys (s : Segmentation) : List ℚ :=
  match s.segments with
  | [] => []
  | a :: rest => a.start :: (a :: rest).map TimeSpan.stop

/-- `Segmentation.__len__`. -/
def Segmentation.size (s : Segmentation) : Nat := s.segments.length

/-- The label list `from_intervals` pairs with the intervals: the given
labels, or one `None` per interval when omitted. -/
def labelsOrDefault (intervals : List (ℚ × ℚ)) (labels : Option (List String)) :
    List (Option String) :=
  match labels with
  | none => List.replicate intervals.length none
  | some ls => ls.map some

/-- The list comprehension of `from_intervals`: build one `TimeSpan` per
`(interval, label)` pair, left to right, propagating the first failure. -/
def buildSpans : List ((ℚ × ℚ) × Option String) → Except BnlError (List TimeSpan)
  | [] => .ok []
  | p :: rest =>
    match TimeSpan.make p.1.1 p.1.2 p.2 with
    | .error e => .error e
    | .ok t =>
      match buildSpans rest with
      | .error e => .error e
      | .ok ts => .ok (t :: ts)

/-- `Segmentation.from_intervals`: default the labels, `zip` them with the
intervals (Python's `zip` truncates to the shorter list), build the spans
and delegate to the validating constructor with the dataclass's default
`start = end = 0.0`. -/
def Segmentation.from_intervals (intervals : List (ℚ × ℚ)) (labels : Option (List String))
    (name : Option String) : Except BnlError Segmentation :=
  match buildSpans (intervals.zip (labelsOrDefault intervals labels)) with
  | .error e => .error e
  | .ok spans => Segmentation.make 0 0 name spans

/-- Modelled from the spec: the source calls the external
`mir_eval.util.boundaries_to_intervals`, whose code is not part of this
repository.  The spec describes the conversion as turning the sorted
boundary sequence into `len(boundaries) - 1` adjacent interval pairs,
with no deduplication. -/
def boundaries_to_intervals (boundaries : List ℚ) : List (ℚ × ℚ) :=
  boundaries.zip boundaries.tail

/-- `Segmentation.from_boundaries`: sort the boundaries, convert to
adjacent interval pairs, delegate to `from_intervals`. -/
def Segmentation.from_boundaries (boundaries : List ℚ) (labels : Option (List String))
    (name : Option String) : Except BnlError Segmentation :=
  Segmentation.from_intervals
    (boundaries_to_intervals (List.insertionSort (fun a b : ℚ => a ≤ b) boundaries))
    labels name

/-- The message of the `ValueError` raised by the extent check. -/
def inconsistentExtentMsg : String := "All layers must have the same start and end time."

/-- `Hierarchy` dataclass: inherits `start`/`stop`/`name` and adds the
layer list. -/
structure Hierarchy where
  start : ℚ
  stop : ℚ
  name : Option String
  layers : List Segmentation
  deriving DecidableEq

/-- `Hierarchy.__init__` + `Hierarchy.__post_init__` (which fully replaces
`TimeSpan.__post_init__`): derive `start`/`end` from the first layer when
non-empty, then raise unless every layer has that same extent. -/
def Hierarchy.make (s e : ℚ) (name : Option String) (layers : List Segmentation) :
    Except BnlError Hierarchy :=
  match layers with
  | [] => .ok ⟨s, e, name, []⟩
  | l0 :: rest =>
    if (l0 :: rest).all (fun l => decide (l.start = l0.start) && decide (l.stop = l0.stop)) then
      .ok ⟨l0.start, l0.stop, name, l0 :: rest⟩
    else .error (.inconsistentExtent inconsistentExtentMsg)

/-- `Hierarchy.__len__`. -/
def Hierarchy.size (h : Hierarchy) : Nat := h.layers.length

/-- The effective position of Python list index `i` in a list of length
`len`: negative indices count from the end. -/
def pyIndex (len : ℕ) (i : ℤ) : ℤ :=
  if i < 0 then i + len else i

/-- Python list indexing `l[i]` for `int` indices: negative indices count
from the end; anything outside `-len .. len-1` raises `IndexError`. -/
def pyGet {α : Type} (l : List α) (i : ℤ) : Except BnlError α :=
  if h : 0 ≤ pyIndex l.length i ∧ pyIndex l.length i < (l.length : ℤ) then
    .ok (l.get ⟨(pyIndex l.length i).toNat, by omega⟩)
  else .error .indexError

/-- `Segmentation.__getitem__`. -/
def Segmentation.getItem (s : Segmentation) (i : ℤ) : Except BnlError TimeSpan :=
  pyGet s.segments i

/-- `Hierarchy.__getitem__`. -/
def Hierarchy.getItem (h : Hierarchy) (i : ℤ) : Except BnlError Segmentation :=
  pyGet h.layers i

/-! ## Basic lemmas about the embedding -/

lemma sortSpans_perm (l : List TimeSpan) : (sortSpans l).Perm l :=
  List.perm_insertionSort spanLE l

lemma sortSpans_length (l : List TimeSpan) : (sortSpans l).length = l.length :=
  (sortSpans_perm l).length_eq

lemma sortSpans_sorted (l : List TimeSpan) : List.Sorted spanLE (sortSpans l) :=
  List.sorted_insertionSort spanLE l

lemma mem_sortSpans {t : TimeSpan} {l : List TimeSpan} : t ∈ sortSpans l ↔ t ∈ l :=
  (sortSpans_perm l).mem_iff

lemma contiguousB_iff_chain :
    ∀ {l : List TimeSpan}, contiguousB l = true ↔ List.Chain' contiguousRel l := by
  intro l
  induction l with
  | nil => simp [contiguousB]
  | cons a tl ih =>
    cases tl with
    | nil => simp [contiguousB]
    | cons b rest =>
      rw [List.chain'_cons, ← ih]
      simp [contiguousB, contiguousRel]

lemma make_ok_segments {a b : ℚ} {nm : Option String} {l : List TimeSpan} {s : Segmentation}
    (h : Segmentation.make a b nm l = .ok s) : s.segments = sortSpans l := by
  unfold Segmentation.make at h
  split at h
  · split at h
    · rename_i heq
      cases h
      exact heq.symm
    · rename_i a1 rest heq
      cases h
      exact heq.symm
  · cases h

lemma make_ok_contig {a b : ℚ} {nm : Option String} {l : List TimeSpan} {s : Segmentation}
    (h : Segmentation.make a b nm l = .ok s) : contiguousB (sortSpans l) = true := by
  unfold Segmentation.make at h
  split at h
  · assumption
  · cases h

lemma make_ok_name {a b : ℚ} {nm : Option String} {l : List TimeSpan} {s : Segmentation}
    (h : Segmentation.make a b nm l = .ok s) : s.name = nm := by
  unfold Segmentation.make at h
  split at h
  · split at h <;> (cases h; rfl)
  · cases h

lemma make_ok_extent {a b : ℚ} {nm : Option String} {l : List TimeSpan} {s : Segmentation}
    (h : Segmentation.make a b nm l = .ok s) (hne : s.segments ≠ []) :
    s.start = (s.segments.head hne).start ∧ s.stop = (s.segments.getLast hne).stop := by
  unfold Segmentation.make at h
  split at h
  · split at h
    · cases h
      exact absurd rfl hne
    · cases h
      exact ⟨rfl, rfl⟩
  · cases h

lemma make_congr_sorted (a b : ℚ) (nm : Option String) {l1 l2 : List TimeSpan}
    (h : sortSpans l1 = sortSpans l2) :
    Segmentation.make a b nm l1 = Segmentation.make a b nm l2 := by
  unfold Segmentation.make
  rw [h]

lemma pyGet_nat {α : Type} (l : List α) (n : ℕ) (hn : n < l.length) :
    pyGet l (n : ℤ) = .ok (l.get ⟨n, hn⟩) := by
  have hpi : pyIndex l.length (n : ℤ) = (n : ℤ) := by
    unfold pyIndex
    rw [if_neg (by omega)]
  have ht : ((n : ℤ)).toNat = n := by omega
  unfold pyGet
  simp only [hpi]
  rw [dif_pos ⟨by omega, by exact_mod_cast hn⟩]
  simp [ht]

lemma pyGet_oob {α : Type} (l : List α) (i : ℤ)
    (h : (l.length : ℤ) ≤ i ∨ i < -(l.length : ℤ)) : pyGet l i = .error .indexError := by
  have hc : ¬ (0 ≤ pyIndex l.length i ∧ pyIndex l.length i < (l.length : ℤ)) := by
    unfold pyIndex
    split <;> omega
  unfold pyGet
  rw [dif_neg hc]

lemma buildSpans_ok_length :
    ∀ {ps : List ((ℚ × ℚ) × Option String)} {ts : List TimeSpan},
      buildSpans ps = .ok ts → ts.length = ps.length := by
  intro ps
  induction ps with
  | nil =>
    intro ts h
    cases h
    rfl
  | cons p rest ih =>
    intro ts h
    unfold buildSpans at h
    split at h
    · cases h
    · split at h
      · cases h
      · rename_i t hm ts2 hb
        cases h
        simp [ih hb]

lemma make_ok_elim {s e : ℚ} {nm : Option String} {t : TimeSpan}
    (h : TimeSpan.make s e nm = .ok t) :
    t = ⟨s, e, some (nm.getD (defaultName s e))⟩ := by
  unfold TimeSpan.make at h
  split at h
  · cases h
  · cases h
    rfl

lemma buildSpans_ok_names :
    ∀ {ps : List ((ℚ × ℚ) × Option String)} {ts : List TimeSpan},
      buildSpans ps = .ok ts → (∀ p ∈ ps, p.2 = none) →
      ∀ t ∈ ts, t.name = some (defaultName t.start t.stop) := by
  intro ps
  induction ps with
  | nil =>
    intro ts h _ t ht
    cases h
    cases ht
  | cons p rest ih =>
    intro ts h hnone t ht
    unfold buildSpans at h
    split at h
    · cases h
    · rename_i t0 hm
      split at h
      · cases h
      · rename_i ts2 hb
        cases h
        rcases List.mem_cons.mp ht with rfl | hmem
        · have hp : p.2 = none := hnone p (List.mem_cons_self p rest)
          have he := make_ok_elim hm
          rw [he]
          simp [hp]
        · exact ih hb (fun q hq => hnone q (List.mem_cons_of_mem p hq)) t hmem

lemma chain_lt_of_contig_pos :
    ∀ {l : List TimeSpan}, List.Chain' contiguousRel l →
      (∀ t ∈ l, t.start < t.stop) → List.Chain' spanLT l := by
  intro l
  induction l with
  | nil =>
    intro _ _
    exact List.chain'_nil
  | cons a tl ih =>
    intro hc hp
    cases tl with
    | nil => exact List.chain'_singleton a
    | cons b rest =>
      rw [List.chain'_cons] at hc ⊢
      refine ⟨?_, ih hc.2 (fun t ht => hp t (List.mem_cons_of_mem a ht))⟩
      have ha : a.start < a.stop := hp a (List.mem_cons_self a _)
      have hab : a.stop = b.start := hc.1
      exact lt_of_lt_of_le (hab ▸ ha) le_rfl

lemma sorted_pairwise_lt {l : List TimeSpan}
    (hs : List.Sorted spanLE l) (hne : l.Pairwise fun a b => a.start ≠ b.start) :
    l.Pairwise spanLT :=
  (List.Pairwise.and hs hne).imp fun h => lt_of_le_of_ne h.1 h.2

/-! ## The claims -/

/-- C10: for all rationals `a` and `b`, including `a > b`, constructing a
Segmentation with an empty segment list and explicit `start = a`,
`end = b` succeeds, and likewise a Hierarchy with an empty layer list:
the aggregate constructors replace `TimeSpan.__post_init__`, so the
inherited `start <= end` check never runs for them. -/
theorem c10_no_range_check (a b : ℚ) (nm : Option String) :
    Segmentation.make a b nm [] = .ok ⟨a, b, nm, []⟩ ∧
    Hierarchy.make a b nm [] = .ok ⟨a, b, nm, []⟩ :=
  ⟨rfl, rfl⟩

/-- C4: Segmentation construction fails with the NonContiguousError-kind
`ValueError` exactly when, after the stable sort by start, some adjacent
pair violates `s[i].end == s[i+1].start`; in particular the gap
`[0,1), [2,3)` and the overlap `[0,1.5), [1,2)` are both rejected, and a
violation is never silently repaired. -/
theorem c4_contiguity_rejection :
    (∀ (a b : ℚ) (nm : Option String) (l : List TimeSpan),
      Segmentation.make a b nm l = .error (.nonContiguous nonContiguousMsg) ↔
        ¬ List.Chain' contiguousRel (sortSpans l)) ∧
    Segmentation.make 0 0 none [⟨0, 1, some "A"⟩, ⟨2, 3, some "B"⟩] =
      .error (.nonContiguous nonContiguousMsg) ∧
    Segmentation.make 0 0 none [⟨0, mkRat 3 2, some "A"⟩, ⟨1, 2, some "B"⟩] =
      .error (.nonContiguous nonContiguousMsg) := by
  refine ⟨?_, by decide, by decide⟩
  intro a b nm l
  rw [← contiguousB_iff_chain]
  unfold Segmentation.make
  cases hC : contiguousB (sortSpans l) with
  | true =>
    simp only [hC, if_true]
    constructor
    · intro h
      split at h <;> cases h
    · intro h
      exact absurd trivial h
  | false =>
    simp [hC]

/-- C5 (amended): Hierarchy construction sets the Hierarchy's start and
end from the first layer when the layer list is non-empty, succeeds if
and only if every layer's extent equals the first layer's (vacuously for
an empty list), and otherwise fails with an InconsistentExtentError-kind
`ValueError` whose fixed message does not name the offending layer
index. -/
theorem c5_extent_amended (a b : ℚ) (nm : Option String) (l0 : Segmentation)
    (rest : List Segmentation) :
    (Hierarchy.make a b nm (l0 :: rest) = .ok ⟨l0.start, l0.stop, nm, l0 :: rest⟩ ↔
      ∀ l ∈ l0 :: rest, l.start = l0.start ∧ l.stop = l0.stop) ∧
    ((∃ l ∈ l0 :: rest, ¬ (l.start = l0.start ∧ l.stop = l0.stop)) →
      Hierarchy.make a b nm (l0 :: rest) = .error (.inconsistentExtent inconsistentExtentMsg)) ∧
    Hierarchy.make a b nm ([] : List Segmentation) = .ok ⟨a, b, nm, []⟩ := by
  have hmk : Hierarchy.make a b nm (l0 :: rest) =
      (if (l0 :: rest).all (fun l => decide (l.start = l0.start) && decide (l.stop = l0.stop))
        then .ok ⟨l0.start, l0.stop, nm, l0 :: rest⟩
        else .error (.inconsistentExtent inconsistentExtentMsg)) := rfl
  refine ⟨?_, ?_, rfl⟩
  · rw [hmk]
    by_cases hA : ((l0 :: rest).all
        fun l => decide (l.start = l0.start) && decide (l.stop = l0.stop)) = true
    · rw [if_pos hA]
      simp only [List.all_eq_true, Bool.and_eq_true, decide_eq_true_eq] at hA
      exact iff_of_true rfl hA
    · rw [if_neg hA]
      simp only [List.all_eq_true, Bool.and_eq_true, decide_eq_true_eq] at hA
      exact iff_of_false (by simp) hA
  · rintro ⟨l, hl, hlbad⟩
    rw [hmk, if_neg]
    intro hA
    rw [List.all_eq_true] at hA
    have := hA l hl
    simp only [Bool.and_eq_true, decide_eq_true_eq] at this
    exact hlbad this

/-- C1 (counterexample): `from_intervals` with 3 intervals and 2 labels
does not fail; it produces a 2-segment Segmentation. -/
theorem c1_label_mismatch_cex :
    Segmentation.from_intervals [(0, 1), (1, 2), (2, 3)] (some ["a", "b"]) none =
      .ok ⟨0, 2, none, [⟨0, 1, some "a"⟩, ⟨1, 2, some "b"⟩]⟩ := by
  decide

/-- C1 (amended): `from_intervals` performs no label-count check at all:
the intervals are paired with the labels by a truncating `zip`, so any
successful construction has `min(len(intervals), len(labels))` segments
— with 3 intervals and 2 labels the third interval is silently dropped
instead of a LabelCountMismatchError being raised. -/
theorem c1_label_mismatch_amended (intervals : List (ℚ × ℚ)) (labels : List String)
    (nm : Option String) (s : Segmentation)
    (h : Segmentation.from_intervals intervals (some labels) nm = .ok s) :
    s.segments.length = min intervals.length labels.length := by
  unfold Segmentation.from_intervals at h
  split at h
  · cases h
  · rename_i spans hb
    rw [make_ok_segments h, sortSpans_length, buildSpans_ok_length hb, List.length_zip]
    unfold labelsOrDefault
    simp

/-- C1 (witness): the amended statement evaluated on 3 intervals and 2
labels. -/
theorem c1_label_mismatch_witness :
    (⟨0, 2, none, [⟨0, 1, some "a"⟩, ⟨1, 2, some "b"⟩]⟩ : Segmentation).segments.length =
      min ([(0, 1), (1, 2), (2, 3)] : List (ℚ × ℚ)).length (["a", "b"] : List String).length :=
  c1_label_mismatch_amended [(0, 1), (1, 2), (2, 3)] ["a", "b"] none _ (by decide)

/-- C2 (counterexample): two Segmentations built from the same segment
list but different names are not equal — the dataclass equality compares
the inherited `name` field too. -/
theorem c2_structural_equality_cex :
    Segmentation.make 0 0 (some "x") [⟨0, 1, some "A"⟩] =
      .ok ⟨0, 1, some "x", [⟨0, 1, some "A"⟩]⟩ ∧
    Segmentation.make 0 0 (some "y") [⟨0, 1, some "A"⟩] =
      .ok ⟨0, 1, some "y", [⟨0, 1, some "A"⟩]⟩ ∧
    (⟨0, 1, some "x", [⟨0, 1, some "A"⟩]⟩ : Segmentation).segments =
      (⟨0, 1, some "y", [⟨0, 1, some "A"⟩]⟩ : Segmentation).segments ∧
    (⟨0, 1, some "x", [⟨0, 1, some "A"⟩]⟩ : Segmentation) ≠
      ⟨0, 1, some "y", [⟨0, 1, some "A"⟩]⟩ := by
  decide

/-- C2 (amended): dataclass equality is structural over all fields
(start, end, name, segments); since successful construction derives
start/end from a non-empty segment list, two such Segmentations are
equal iff their names and their ordered segment sequences agree — the
Segmentation's own name does participate in equality. -/
theorem c2_structural_equality_amended (a1 b1 a2 b2 : ℚ) (n1 n2 : Option String)
    (l1 l2 : List TimeSpan) (s1 s2 : Segmentation)
    (h1 : Segmentation.make a1 b1 n1 l1 = .ok s1)
    (h2 : Segmentation.make a2 b2 n2 l2 = .ok s2)
    (hne : s1.segments ≠ []) :
    s1 = s2 ↔ s1.name = s2.name ∧ s1.segments = s2.segments := by
  constructor
  · intro h
    rw [h]
    exact ⟨rfl, rfl⟩
  · rintro ⟨hn, hs⟩
    have hne2 : s2.segments ≠ [] := hs ▸ hne
    obtain ⟨he1s, he1e⟩ := make_ok_extent h1 hne
    obtain ⟨he2s, he2e⟩ := make_ok_extent h2 hne2
    obtain ⟨st1, sp1, nm1, segs1⟩ := s1
    obtain ⟨st2, sp2, nm2, segs2⟩ := s2
    simp only at hn hs hne hne2 he1s he1e he2s he2e
    subst hs
    subst hn
    simp only [Segmentation.mk.injEq]
    refine ⟨by rw [he1s, he2s], by rw [he1e, he2e], ?_, ?_⟩ <;> trivial

/-- C2 (witness): the amended equivalence evaluated on two concrete
constructed Segmentations. -/
theorem c2_structural_equality_witness :
    (⟨0, 1, some "x", [⟨0, 1, some "A"⟩]⟩ : Segmentation) =
        ⟨0, 1, some "x", [⟨0, 1, some "A"⟩]⟩ ↔
      (⟨0, 1, some "x", [⟨0, 1, some "A"⟩]⟩ : Segmentation).name =
          (⟨0, 1, some "x", [⟨0, 1, some "A"⟩]⟩ : Segmentation).name ∧
        (⟨0, 1, some "x", [⟨0, 1, some "A"⟩]⟩ : Segmentation).segments =
          (⟨0, 1, some "x", [⟨0, 1, some "A"⟩]⟩ : Segmentation).segments :=
  c2_structural_equality_amended 0 0 0 0 (some "x") (some "x") [⟨0, 1, some "A"⟩]
    [⟨0, 1, some "A"⟩] _ _ (by decide) (by decide) (by decide)

/-- C3 (counterexample): the span list `[1,1), [1,2)` is valid and
contiguous, but its (reversed) permutation fails construction: the
stable sort keeps equal-start spans in input order, so the zero-length
span lands after `[1,2)` and the contiguity check rejects the pair. -/
theorem c3_permutation_cex :
    Segmentation.make 0 0 none [⟨1, 1, some "a"⟩, ⟨1, 2, some "b"⟩] =
      .ok ⟨1, 2, none, [⟨1, 1, some "a"⟩, ⟨1, 2, some "b"⟩]⟩ ∧
    List.Perm [(⟨1, 2, some "b"⟩ : TimeSpan), ⟨1, 1, some "a"⟩]
      [⟨1, 1, some "a"⟩, ⟨1, 2, some "b"⟩] ∧
    Segmentation.make 0 0 none [⟨1, 2, some "b"⟩, ⟨1, 1, some "a"⟩] =
      .error (.nonContiguous nonContiguousMsg) := by
  decide

/-- C3 (amended): for a valid contiguous span list whose spans all have
positive length (so starts are pairwise distinct and the stable sort has
no ties), construction succeeds from every permutation, the resulting
segments are sorted ascending by start, and the result is structurally
identical regardless of input order.  With zero-length spans the stable
sort's tie-breaking by original order can place a zero-length span after
its neighbour and construction fails (see the counterexample). -/
theorem c3_permutation_invariance (a b : ℚ) (nm : Option String)
    (l lp : List TimeSpan) (s : Segmentation)
    (hpos : ∀ t ∈ l, t.start < t.stop)
    (hok : Segmentation.make a b nm l = .ok s)
    (hperm : lp.Perm l) :
    Segmentation.make a b nm lp = .ok s ∧
    List.Pairwise spanLE s.segments := by
  have hchain : List.Chain' contiguousRel (sortSpans l) :=
    contiguousB_iff_chain.mp (make_ok_contig hok)
  have hposL : ∀ t ∈ sortSpans l, t.start < t.stop :=
    fun t ht => hpos t (mem_sortSpans.mp ht)
  have hltL : (sortSpans l).Pairwise spanLT :=
    List.chain'_iff_pairwise.mp (chain_lt_of_contig_pos hchain hposL)
  have hperm2 : (sortSpans lp).Perm (sortSpans l) :=
    ((sortSpans_perm lp).trans hperm).trans (sortSpans_perm l).symm
  have hneL : (sortSpans l).Pairwise fun x y => x.start ≠ y.start :=
    hltL.imp fun h => ne_of_lt h
  have hneLp : (sortSpans lp).Pairwise fun x y => x.start ≠ y.start :=
    (hperm2.pairwise_iff fun h => Ne.symm h).mpr hneL
  have hltLp : (sortSpans lp).Pairwise spanLT :=
    sorted_pairwise_lt (sortSpans_sorted lp) hneLp
  have heq : sortSpans lp = sortSpans l :=
    List.eq_of_perm_of_sorted hperm2 hltLp hltL
  constructor
  · rw [make_congr_sorted a b nm heq]
    exact hok
  · rw [make_ok_segments hok]
    exact sortSpans_sorted l

/-- C3 (witness): the amended statement evaluated on the positive-length
list `[0,1), [1,2)` and its reversal. -/
theorem c3_permutation_witness :
    Segmentation.make 0 0 none [⟨1, 2, some "B"⟩, ⟨0, 1, some "A"⟩] =
      .ok ⟨0, 2, none, [⟨0, 1, some "A"⟩, ⟨1, 2, some "B"⟩]⟩ ∧
    List.Pairwise spanLE
      (⟨0, 2, none, [⟨0, 1, some "A"⟩, ⟨1, 2, some "B"⟩]⟩ : Segmentation).segments :=
  c3_permutation_invariance 0 0 none [⟨0, 1, some "A"⟩, ⟨1, 2, some "B"⟩]
    [⟨1, 2, some "B"⟩, ⟨0, 1, some "A"⟩] _ (by decide) (by decide) (by decide)

/-- C5 (counterexample): hierarchies whose offending layers sit at
different indices (1 resp. 2) fail with identical error values carrying
the one fixed message, so the raised error does not name the offending
layer index. -/
theorem c5_extent_cex :
    Segmentation.make 0 0 none [⟨0, 4, some "A"⟩] = .ok ⟨0, 4, none, [⟨0, 4, some "A"⟩]⟩ ∧
    Segmentation.make 0 0 none [⟨0, 5, some "B"⟩] = .ok ⟨0, 5, none, [⟨0, 5, some "B"⟩]⟩ ∧
    Hierarchy.make 0 0 none
        [⟨0, 4, none, [⟨0, 4, some "A"⟩]⟩, ⟨0, 5, none, [⟨0, 5, some "B"⟩]⟩] =
      .error (.inconsistentExtent inconsistentExtentMsg) ∧
    Hierarchy.make 0 0 none
        [⟨0, 4, none, [⟨0, 4, some "A"⟩]⟩, ⟨0, 4, none, [⟨0, 4, some "A"⟩]⟩,
          ⟨0, 5, none, [⟨0, 5, some "B"⟩]⟩] =
      .error (.inconsistentExtent inconsistentExtentMsg) ∧
    inconsistentExtentMsg = "All layers must have the same start and end time." := by
  decide

/-- C6: `from_boundaries([0,1,2,3], labels=["a","b","c"])` round-trips:
`bdrys` reads back exactly `[0,1,2,3]` and `labels` exactly
`["a","b","c"]`; in general `bdrys` is the first segment's start
followed by every segment's end, of length `len(segments) + 1` when
non-empty and empty otherwise. -/
theorem c6_boundaries_roundtrip :
    Segmentation.from_boundaries [0, 1, 2, 3] (some ["a", "b", "c"]) none =
      .ok ⟨0, 3, none, [⟨0, 1, some "a"⟩, ⟨1, 2, some "b"⟩, ⟨2, 3, some "c"⟩]⟩ ∧
    (⟨0, 3, none, [⟨0, 1, some "a"⟩, ⟨1, 2, some "b"⟩, ⟨2, 3, some "c"⟩]⟩ :
        Segmentation).bdrys = [0, 1, 2, 3] ∧
    (⟨0, 3, none, [⟨0, 1, some "a"⟩, ⟨1, 2, some "b"⟩, ⟨2, 3, some "c"⟩]⟩ :
        Segmentation).labels = [some "a", some "b", some "c"] ∧
    (∀ s : Segmentation, s.segments = [] → s.bdrys = []) ∧
    (∀ (s : Segmentation) (t : TimeSpan) (rest : List TimeSpan), s.segments = t :: rest →
      s.bdrys = t.start :: (t :: rest).map TimeSpan.stop ∧
        s.bdrys.length = s.segments.length + 1) := by
  refine ⟨by decide, by decide, by decide, ?_, ?_⟩
  · intro s h
    simp [Segmentation.bdrys, h]
  · intro s t rest h
    refine ⟨by simp [Segmentation.bdrys, h], ?_⟩
    simp [Segmentation.bdrys, h]

/-- C7: `TimeSpan` construction fails with the InvalidRangeError-kind
error exactly when start > end, and zero-length spans are allowed, so
`from_boundaries([1,1,2])` succeeds and produces the zero-length span
`[1,1)` followed by `[1,2)`. -/
theorem c7_zero_length_spans :
    (∀ (s e : ℚ) (nm : Option String),
      (s > e → TimeSpan.make s e nm = .error (.invalidRange s e)) ∧
      (s ≤ e → TimeSpan.make s e nm = .ok ⟨s, e, some (nm.getD (defaultName s e))⟩)) ∧
    Segmentation.from_boundaries [1, 1, 2] none none =
      .ok ⟨1, 2, none, [⟨1, 1, some "[1.0-1.0s]"⟩, ⟨1, 2, some "[1.0-2.0s]"⟩]⟩ := by
  refine ⟨?_, by decide⟩
  intro s e nm
  constructor
  · intro h
    unfold TimeSpan.make
    rw [if_pos h]
  · intro h
    unfold TimeSpan.make
    rw [if_neg (not_lt.mpr h)]

/-- C8: when labels are omitted, `from_intervals` gives every segment a
default name derived deterministically from its own (start, end) values
(the formatted interval string), so the labels view has one non-missing
label per interval. -/
theorem c8_default_labels (intervals : List (ℚ × ℚ)) (nm : Option String) (s : Segmentation)
    (h : Segmentation.from_intervals intervals none nm = .ok s) :
    s.labels.length = intervals.length ∧
    (∀ lab ∈ s.labels, lab ≠ none) ∧
    (∀ t ∈ s.segments, t.name = some (defaultName t.start t.stop)) := by
  unfold Segmentation.from_intervals at h
  split at h
  · cases h
  · rename_i spans hb
    have hseg := make_ok_segments h
    have hnames : ∀ t ∈ spans, t.name = some (defaultName t.start t.stop) := by
      refine buildSpans_ok_names hb ?_
      rintro ⟨pi, pl⟩ hp
      exact List.eq_of_mem_replicate (List.of_mem_zip hp).2
    refine ⟨?_, ?_, ?_⟩
    · unfold Segmentation.labels
      rw [List.length_map, hseg, sortSpans_length, buildSpans_ok_length hb, List.length_zip]
      unfold labelsOrDefault
      simp
    · intro lab hlab
      obtain ⟨t, ht, rfl⟩ := List.mem_map.mp hlab
      rw [hseg] at ht
      rw [hnames t (mem_sortSpans.mp ht)]
      simp
    · intro t ht
      rw [hseg] at ht
      exact hnames t (mem_sortSpans.mp ht)

/-- C8 (witness): the default labels evaluated on the intervals
`[[0,1],[1,2.5]]`. -/
theorem c8_default_labels_witness :
    (⟨0, mkRat 5 2, none, [⟨0, 1, some "[0.0-1.0s]"⟩, ⟨1, mkRat 5 2, some "[1.0-2.5s]"⟩]⟩ :
        Segmentation).labels.length = ([(0, 1), (1, mkRat 5 2)] : List (ℚ × ℚ)).length ∧
    (∀ lab ∈ (⟨0, mkRat 5 2, none,
        [⟨0, 1, some "[0.0-1.0s]"⟩, ⟨1, mkRat 5 2, some "[1.0-2.5s]"⟩]⟩ :
        Segmentation).labels, lab ≠ none) ∧
    (∀ t ∈ (⟨0, mkRat 5 2, none,
        [⟨0, 1, some "[0.0-1.0s]"⟩, ⟨1, mkRat 5 2, some "[1.0-2.5s]"⟩]⟩ :
        Segmentation).segments, t.name = some (defaultName t.start t.stop)) :=
  c8_default_labels [(0, 1), (1, mkRat 5 2)] none _ (by decide)

/-- C9: in-range indexing on a Segmentation returns the i-th stored
(sorted) TimeSpan and out-of-range indexing fails with the
IndexError-kind condition; likewise for a Hierarchy's layers, and
`len(hierarchy)` is the layer count. -/
theorem c9_indexing (s : Segmentation) (hier : Hierarchy) (i : ℤ) (n : ℕ) :
    (∀ hn : n < s.segments.length, s.getItem (n : ℤ) = .ok (s.segments.get ⟨n, hn⟩)) ∧
    (((s.segments.length : ℤ) ≤ i ∨ i < -(s.segments.length : ℤ)) →
      s.getItem i = .error .indexError) ∧
    (∀ hn : n < hier.layers.length, hier.getItem (n : ℤ) = .ok (hier.layers.get ⟨n, hn⟩)) ∧
    (((hier.layers.length : ℤ) ≤ i ∨ i < -(hier.layers.length : ℤ)) →
      hier.getItem i = .error .indexError) ∧
    hier.size = hier.layers.length :=
  ⟨fun hn => pyGet_nat s.segments n hn,
   fun h => pyGet_oob s.segments i h,
   fun hn => pyGet_nat hier.layers n hn,
   fun h => pyGet_oob hier.layers i h,
   rfl⟩

end Bnl
